/-
Verification of the dbox shared-message map (dbox-map.c) against its
natural-language specification.

The C source is shallowly embedded: each verified routine becomes a pure
Lean function over an explicit model of the mail-index state it reads and
writes.  Machine integers are modelled as Nat/Int (refcounts are uint16_t
on disk, but the C routines compute with int, so the overflow guard fires
long before any wraparound matters).  External collaborators (the index
engine, the data-file layer) appear as explicit state components or as
oracle parameters recording the outcome of each fallible call.
-/
import Mathlib

namespace DboxMap

/-! ## Data model

`dbox_mail_index_map_record`: the fixed-size row of the "map" extension. -/

structure MapRec where
  fileId : Nat
  offset : Nat
  size : Nat
deriving DecidableEq, Repr

/-- One sequence (row) of the map index as the read-side routines see it:
the "map" extension payload (`none` models `mail_index_lookup_ext`
returning NULL data), the "ref" extension payload (`none` models NULL,
i.e. treated as refcount 0 where the code does so), and the `expunged`
flag returned by `mail_index_lookup_ext`. -/
structure SeqEntry where
  mapRec : Option MapRec
  ref : Option Nat
  expunged : Bool
deriving DecidableEq, Repr

/-! ## Zero-ref enumeration (dbox_map_get_zero_ref_files)

The C loop body for one sequence `seq`:

    mail_index_lookup_ext(view, seq, ref_ext, &data, &expunged);
    if (data != NULL && !expunged) {
        ref16_p = data;
        if (*ref16_p != 0) continue;
    }
    mail_index_lookup_ext(view, seq, map_ext, &data, &expunged);
    if (data != NULL && !expunged) {
        rec = data;
        seq_range_array_add(&map->ref0_file_ids, 0, rec->file_id);
    }
-/

/-- The `continue` test of the C loop: skip the sequence when the "ref"
payload is present and not expunged but nonzero. -/
def zeroRefSkip (e : SeqEntry) : Bool :=
  match e.ref with
  | some r => !e.expunged && r != 0
  | none => false

/-- The contribution of a single scanned sequence: `some fid` exactly when
the C loop body executes `seq_range_array_add` with `rec->file_id = fid`. -/
def zeroRefContribution (e : SeqEntry) : Option Nat :=
  if zeroRefSkip e then none
  else
    match e.mapRec with
    | some rec => if !e.expunged then some rec.fileId else none
    | none => none

/-- `dbox_map_get_zero_ref_files`: scan every sequence and accumulate the
contributed file ids (`seq_range_array_add` builds a set; we model the
result up to membership as the list of added ids). -/
def dbox_map_get_zero_ref_files (entries : List SeqEntry) : List Nat :=
  entries.filterMap zeroRefContribution

/-- A sequence is live (present in the view and not expunged). -/
def isLive (e : SeqEntry) : Prop := ¬ e.expunged

instance (e : SeqEntry) : Decidable (isLive e) := by
  unfold isLive; infer_instance

/-- The refcount the code reads for a sequence, with an absent "ref"
payload treated as 0 (as `dbox_map_update_refcounts` does). -/
def refOrZero (e : SeqEntry) : Nat := (e.ref).getD 0

/-! ## Refcount transactions (dbox_map_transaction_*, dbox_map_update_refcounts)

The view is modelled as the list of map rows the refcount path reads:
`mail_index_lookup_seq` resolves a map uid to a sequence (here: a 0-based
index into the list), `mail_index_lookup_ext` on the "ref" extension
yields the stored refcount (`none` = NULL data, treated as 0).  The index
transaction accumulates per-sequence atomic-increment diffs; committing
the transaction applies them to the stored rows (uint16_t cells). -/

structure RefEntry where
  uid : Nat
  ref : Option Nat
deriving DecidableEq, Repr

abbrev RefView := List RefEntry

/-- `mail_index_lookup_seq`: map uid → sequence (0-based index here),
for any row type with a uid projection. -/
def lookupSeqBy {α : Type} (uidOf : α → Nat) : List α → Nat → Option Nat
  | [], _ => none
  | e :: rest, u =>
    if uidOf e = u then some 0 else (lookupSeqBy uidOf rest u).map (· + 1)

/-- `mail_index_lookup_seq` on the refcount view. -/
def lookupSeqIdx (view : RefView) (uid : Nat) : Option Nat :=
  lookupSeqBy (·.uid) view uid

/-- The pending state of a `mail_index_transaction`: the cumulative
atomic-increment diff recorded for each sequence. -/
structure TransState where
  diffs : List (Nat × Int)
deriving DecidableEq, Repr

def transDiff (t : TransState) (seq : Nat) : Int :=
  match t.diffs.find? (fun p => p.1 == seq) with
  | some p => p.2
  | none => 0

/-- `mail_index_atomic_inc_ext`: record `d` against `seq` in the
transaction and return the cumulative diff recorded so far (the C API's
return value, which `dbox_map_update_refcounts` adds to the stored
value). -/
def atomicIncExt (t : TransState) (seq : Nat) (d : Int) : TransState × Int :=
  let c := transDiff t seq + d
  (⟨(seq, c) :: t.diffs.filter (fun p => p.1 != seq)⟩, c)

/-- `dbox_map_transaction_context`: the index transaction (if `begin`
managed to open one), the `changed` and `success` bitfields. -/
structure MapTransCtx where
  trans : Option TransState
  changed : Bool
  success : Bool
deriving DecidableEq, Repr

/-- The per-uid loop of `dbox_map_update_refcounts`: look up the sequence
(failure is corruption and aborts with -1), read the stored refcount
(NULL data counts as 0), set `changed`, apply the atomic increment, and
fail with -1 as soon as the estimated current value reaches 32768. -/
def updateRefcountsLoop (view : RefView) (t : TransState) (changed : Bool)
    (uids : List Nat) (diff : Int) : TransState × Bool × Int :=
  match uids with
  | [] => (t, changed, 0)
  | uid :: rest =>
    match lookupSeqIdx view uid with
    | none => (t, changed, -1)
    | some seq =>
      let stored : Int := ((view.getD seq ⟨0, none⟩).ref.getD 0 : Nat)
      let ti := atomicIncExt t seq diff
      let cur := stored + ti.2
      if 32768 ≤ cur then (ti.1, true, -1)
      else updateRefcountsLoop view ti.1 true rest diff

/-- `dbox_map_update_refcounts`: fails fast with -1 when no transaction
is open, otherwise runs the loop over the given map uids. -/
def dbox_map_update_refcounts (view : RefView) (ctx : MapTransCtx)
    (uids : List Nat) (diff : Int) : MapTransCtx × Int :=
  match ctx.trans with
  | none => (ctx, -1)
  | some t =>
    let r := updateRefcountsLoop view t ctx.changed uids diff
    ({ ctx with trans := some r.1, changed := r.2.1 }, r.2.2)

/-- Committing an index transaction applies each recorded diff to the
stored uint16_t ref cell (modulo 2^16, an absent cell counting as 0). -/
def applyTrans (state : RefView) (t : TransState) : RefView :=
  state.mapIdx fun i e =>
    { e with ref := some ((((e.ref.getD 0 : Int) + transDiff t i) % 65536).toNat) }

/-- Outcomes of the two fallible index-engine calls made by
`dbox_map_transaction_commit`. -/
structure CommitEnv where
  syncOk : Bool
  indexCommitOk : Bool
deriving DecidableEq, Repr

structure CommitResult where
  state : RefView
  ctx : MapTransCtx
  syncOpened : Bool
  ret : Int
deriving DecidableEq, Repr

/-- `dbox_map_transaction_commit`: a `changed == false` context returns 0
immediately; otherwise begin a sync (failure rolls the transaction back),
then commit the index transaction, which applies its diffs to the stored
rows and marks the context successful. -/
def dbox_map_transaction_commit (env : CommitEnv) (state : RefView)
    (ctx : MapTransCtx) : CommitResult :=
  if !ctx.changed then ⟨state, ctx, false, 0⟩
  else if !env.syncOk then ⟨state, { ctx with trans := none }, false, -1⟩
  else
    match ctx.trans with
    | none => ⟨state, ctx, true, -1⟩
    | some t =>
      if !env.indexCommitOk then
        ⟨state, { ctx with trans := none }, true, -1⟩
      else
        ⟨applyTrans state t, { ctx with trans := none, success := true }, true, 0⟩

structure FreeResult where
  state : RefView
  syncCommitted : Bool
deriving DecidableEq, Repr

/-- `dbox_map_transaction_free`: commits the open sync when the context
succeeded, rolls it back otherwise, and rolls back any still-open index
transaction; neither path writes anything to the stored rows. -/
def dbox_map_transaction_free (state : RefView) (ctx : MapTransCtx) : FreeResult :=
  { state := state, syncCommitted := ctx.success }

/-! ## Data files and append rollback (dbox_map_append_file_rollback,
dbox_map_append_free)

`struct dbox_file`, restricted to the fields the verified routines read:
the assigned file id (0 = not yet assigned), whether it is a
single-mailbox file, the open output stream's offset (`none` = no open
stream), the offset of this batch's first append, and the file header
size. -/

structure DboxFile where
  fileId : Nat
  singleMbox : Bool
  output : Option Nat
  firstAppendOffset : Nat
  fileHeaderSize : Nat
deriving DecidableEq, Repr

/-- The on-disk effect `dbox_map_append_file_rollback` chooses for one
batch file. -/
inductive RollbackAction where
  | truncate (offset : Nat)
  | unlink
deriving DecidableEq, Repr

/-- `dbox_map_append_file_rollback`: truncate back to the pre-batch tail
when the file has an assigned id and this batch actually appended past
the file header; otherwise unlink the file. -/
def dbox_map_append_file_rollback (f : DboxFile) : RollbackAction :=
  if f.fileId ≠ 0 ∧ f.fileHeaderSize < f.firstAppendOffset then
    .truncate f.firstAppendOffset
  else
    .unlink

/-- `dbox_map_append_free`: for each batch file, roll back the on-disk
tail unless the context committed, then reset `first_append_offset`,
unlock and unref the handle.  Returns the per-file rollback actions
(`none` when the commit made rollback unnecessary) and the final file
states. -/
def dbox_map_append_free (committed : Bool) (files : List DboxFile) :
    List (Option RollbackAction) × List DboxFile :=
  (files.map fun f =>
     if committed then none else some (dbox_map_append_file_rollback f),
   files.map fun f => { f with firstAppendOffset := 0 })

/-! ## Lookup by map uid (dbox_map_lookup, dbox_map_lookup_seq,
dbox_map_get_seq)

The lookup path reads the "map" extension only; a row is its uid and the
optional map record (`none` models NULL extension data).  The map state
carries the current view, the on-disk state a refresh would load
(`refresh` replaces the view by it), and the success of the two fallible
I/O steps (`dbox_map_open` and `dbox_map_refresh`). -/

structure LEntry where
  uid : Nat
  mapRec : Option MapRec
deriving DecidableEq, Repr

structure LookupMap where
  openOk : Bool
  refreshOk : Bool
  view : List LEntry
  disk : List LEntry
deriving DecidableEq, Repr

/-- `mail_index_lookup_seq` on the lookup view. -/
def lookupSeqL (view : List LEntry) (uid : Nat) : Option Nat :=
  lookupSeqBy (·.uid) view uid

/-- `dbox_map_get_seq`: translate the map uid to a sequence; when it is
not found, refresh once (replacing the view by the on-disk state) and
retry.  Returns the possibly-refreshed map, the C return value
(1 found / 0 missing after refresh / -1 refresh failed) and the
sequence. -/
def dbox_map_get_seq (m : LookupMap) (uid : Nat) :
    LookupMap × Int × Option Nat :=
  match lookupSeqL m.view uid with
  | some s => (m, 1, some s)
  | none =>
    if !m.refreshOk then (m, -1, none)
    else
      let m' := { m with view := m.disk }
      match lookupSeqL m'.view uid with
      | some s => (m', 1, some s)
      | none => (m', 0, none)

/-- Result of `dbox_map_lookup_seq` for one sequence: the decoded record,
or the corruption signal carrying the map uid that
`dbox_map_set_corrupted` puts into the "file_id=0 for map_uid=%u"
message. -/
inductive LookupSeqRes where
  | ok (fileId offset size : Nat)
  | corrupted (mapUid : Nat)
deriving DecidableEq, Repr

/-- `dbox_map_lookup_seq`: read the "map" extension payload of the
sequence; NULL data or a zero file id is corruption, reported with the
sequence's uid (`mail_index_lookup_uid`). -/
def dbox_map_lookup_seq (view : List LEntry) (s : Nat) : LookupSeqRes :=
  match (view.getD s ⟨0, none⟩).mapRec with
  | none => .corrupted (view.getD s ⟨0, none⟩).uid
  | some mrec =>
    if mrec.fileId = 0 then .corrupted (view.getD s ⟨0, none⟩).uid
    else .ok mrec.fileId mrec.offset mrec.size

/-- The outcome of `dbox_map_lookup`: the C return value, the two out
parameters, and the uid named in the corruption message if one was
raised. -/
structure LookupResult where
  ret : Int
  fileId : Option Nat
  offset : Option Nat
  corruptedUid : Option Nat
deriving DecidableEq, Repr

/-- `dbox_map_lookup`: open the map (I/O failure is -1), resolve the uid
to a sequence with one refresh-and-retry, then decode the record;
corruption is -1, success is 1 with `(file_id, offset)`. -/
def dbox_map_lookup (m : LookupMap) (uid : Nat) : LookupResult :=
  if !m.openOk then ⟨-1, none, none, none⟩
  else
    let g := dbox_map_get_seq m uid
    match g.2.2 with
    | none => ⟨g.2.1, none, none, none⟩
    | some s =>
      match dbox_map_lookup_seq g.1.view s with
      | .corrupted u => ⟨-1, none, none, some u⟩
      | .ok fid off _ => ⟨1, some fid, some off, none⟩

/-- Modelled from the claim's words (C4), for refinement only: positive
with the entry's `(file_id, offset)` when the uid resolves (after at most
one refresh-and-retry), zero when still missing after the refresh,
negative on I/O error, and a present sequence with a missing map payload
or `file_id == 0` gives the negative corruption outcome naming the looked
up map uid. -/
def dbox_map_lookup_spec (m : LookupMap) (uid : Nat) : LookupResult :=
  if !m.openOk then ⟨-1, none, none, none⟩
  else
    let decode : List LEntry → Nat → LookupResult := fun view s =>
      match (view.getD s ⟨0, none⟩).mapRec with
      | none => ⟨-1, none, none, some uid⟩
      | some mrec =>
        if mrec.fileId = 0 then ⟨-1, none, none, some uid⟩
        else ⟨1, some mrec.fileId, some mrec.offset, none⟩
    match lookupSeqL m.view uid with
    | some s => decode m.view s
    | none =>
      if !m.refreshOk then ⟨-1, none, none, none⟩
      else
        match lookupSeqL m.disk uid with
        | some s => decode m.disk s
        | none => ⟨0, none, none, none⟩

/-! ## Assigning file ids and map uids (dbox_map_assign_file_ids,
dbox_map_append_assign_map_uids)

The committed index state this path reads and writes: the header's
`next_uid` and `uid_validity`, the "map" extension header
(`highest_file_id`; `none` models the zero-sized "first file" payload),
and the rows.  A queued append references its file by position in the
context's file list (the C struct holds a pointer; the file id is read
only after `dbox_map_assign_file_ids` ran).  The fallible collaborator
calls (`mail_index_sync_begin`, `dbox_file_flush_append` /
`dbox_file_assign_id`, `mail_index_transaction_commit`) are oracles; a
single flag per group models the batch in which every call succeeds or
the first one fails. -/

structure MEntry where
  uid : Nat
  mapRec : Option MapRec
  ref : Option Nat
deriving DecidableEq, Repr

structure MIndex where
  nextUid : Nat
  uidValidity : Nat
  highestFileId : Option Nat
  entries : List MEntry
deriving DecidableEq, Repr

/-- A queued append after `dbox_map_append_finish_multi_mail` stamped its
size: the batch file it went to (by position), offset and size. -/
structure AppendRec where
  fileIdx : Nat
  offset : Nat
  size : Nat
deriving DecidableEq, Repr

structure AssignEnv where
  syncOk : Bool
  fileOpsOk : Bool
  indexCommitOk : Bool
  nowTime : Nat
deriving DecidableEq, Repr

/-- `dbox_map_get_next_file_id`: a missing (zero-sized) map-extension
header means the first file id is 1, otherwise `highest_file_id + 1`. -/
def dbox_map_get_next_file_id (idx : MIndex) : Nat :=
  match idx.highestFileId with
  | none => 1
  | some h => h + 1

/-- The file-id assignment loop of `dbox_map_assign_file_ids`: skip
single-mailbox files, give each multi-file that still has `file_id == 0`
the next id.  Returns the updated files and the next unused id. -/
def assignFileIdsLoop : List DboxFile → Nat → List DboxFile × Nat
  | [], fid => ([], fid)
  | f :: rest, fid =>
    if f.singleMbox then
      let r := assignFileIdsLoop rest fid
      (f :: r.1, r.2)
    else if f.fileId = 0 then
      let r := assignFileIdsLoop rest (fid + 1)
      ({ f with fileId := fid } :: r.1, r.2)
    else
      let r := assignFileIdsLoop rest fid
      (f :: r.1, r.2)

structure AssignResult where
  idx : MIndex
  files : List DboxFile
  firstMapUid : Nat
  lastMapUid : Nat
  ret : Int
deriving DecidableEq, Repr

/-- `dbox_map_append_assign_map_uids`: nothing queued returns `(0, 0)`
untouched; otherwise sync, assign file ids (updating the map-extension
header when any id was handed out), append one row per queued append
carrying `MapRecord{file_id, offset, size}` and a ref cell of 1, assign
map uids from the header's `next_uid`, set a nonzero `uid_validity` if
needed, and commit. -/
def dbox_map_append_assign_map_uids (env : AssignEnv) (idx : MIndex)
    (files : List DboxFile) (appends : List AppendRec) : AssignResult :=
  if appends.length = 0 then ⟨idx, files, 0, 0, 0⟩
  else if !env.syncOk then ⟨idx, files, 0, 0, -1⟩
  else if !env.fileOpsOk then ⟨idx, files, 0, 0, -1⟩
  else
    let fid0 := dbox_map_get_next_file_id idx
    let fl := assignFileIdsLoop files fid0
    let highest' := if fid0 ≠ fl.2 then some (fl.2 - 1) else idx.highestFileId
    let firstUid := idx.nextUid
    let newEntries := appends.mapIdx fun i a =>
      MEntry.mk (firstUid + i)
        (some (MapRec.mk ((fl.1.getD a.fileIdx ⟨0, false, none, 0, 0⟩).fileId)
                a.offset a.size))
        (some 1)
    let uidValidity' := if idx.uidValidity = 0 then env.nowTime else idx.uidValidity
    if !env.indexCommitOk then ⟨idx, fl.1, 0, 0, -1⟩
    else
      ⟨⟨firstUid + appends.length, uidValidity', highest',
        idx.entries ++ newEntries⟩,
       fl.1, firstUid, firstUid + appends.length - 1, 0⟩

/-! ## Finding an appendable file (dbox_map_find_appendable_file)

The backward scan walks the map view (rows as in the lookup model) from
the highest sequence down.  `dbox_map_file_try_append` belongs to the
data-file collaborator: its outcomes are an oracle list, one entry per
call, `keep` carrying the map view its internal `dbox_map_refresh`
installed (the same view when nothing changed); an exhausted oracle list
is completed with `tooOld`.  The scan also returns a trace of one event
per loop iteration, recording how each sequence was handled. -/

def MAX_BACKWARDS_LOOKUPS : Nat := 10

/-- Outcome of one `dbox_map_file_try_append` call as the scan sees it:
FALSE (file too old, stop scanning), TRUE with a file (success), or TRUE
with no file (keep scanning, view refreshed to `newView`). -/
inductive TAOut where
  | tooOld
  | success
  | keep (newView : List LEntry)
deriving DecidableEq, Repr

def TAOut.isKeep : TAOut → Bool
  | keep _ => true
  | _ => false

/-- One loop iteration of the backward scan: the 1-based sequence, its
uid and file id, and how the iteration ended. -/
inductive ScanEv where
  | dedupeSkip (seq uid fid : Nat)
  | capBreak (seq uid fid : Nat)
  | sizeSkip (seq uid fid : Nat)
  | appendingSkip (seq uid fid : Nat)
  | examine (seq uid fid : Nat) (out : TAOut)
deriving DecidableEq, Repr

def ScanEv.fid : ScanEv → Nat
  | dedupeSkip _ _ f => f
  | capBreak _ _ f => f
  | sizeSkip _ _ f => f
  | appendingSkip _ _ f => f
  | examine _ _ f _ => f

def ScanEv.seq : ScanEv → Nat
  | dedupeSkip s _ _ => s
  | capBreak s _ _ => s
  | sizeSkip s _ _ => s
  | appendingSkip s _ _ => s
  | examine s _ _ _ => s

/-- The iteration got past the `file_id >= min_seen_file_id` dedupe test. -/
def ScanEv.considered : ScanEv → Bool
  | dedupeSkip _ _ _ => false
  | _ => true

/-- The iteration got past the `MAX_BACKWARDS_LOOKUPS` cutoff and
examined its candidate file. -/
def ScanEv.examined : ScanEv → Bool
  | sizeSkip _ _ _ => true
  | appendingSkip _ _ _ => true
  | examine _ _ _ _ => true
  | _ => false

def countExamined (evs : List ScanEv) : Nat :=
  evs.countP fun e => e.examined

/-- `mail_index_lookup_seq_range(view, 1, u, &seq1, &seq2)`: the last
1-based sequence whose uid is ≤ `u` (views are uid-sorted, so that is the
number of such rows), `none` when there is none. -/
def seqRangeLast (v : List LEntry) (u : Nat) : Option Nat :=
  let n := (v.filter fun e => e.uid ≤ u).length
  if n = 0 then none else some n

inductive ScanOutcome where
  | ioErr
  | createNew
  | foundFile
  | fuelOut
deriving DecidableEq, Repr

inductive StepRes where
  | stop (o : ScanOutcome) (evs : List ScanEv)
  | cont (ev : ScanEv) (view : List LEntry) (seq minSeen lookups : Nat)
      (ta : List TAOut)

/-- One iteration of the backward-scan loop body at 1-based sequence
`s + 1`, in the C source's order: decode the row (corruption aborts),
dedupe against `min_seen_file_id`, apply the `MAX_BACKWARDS_LOOKUPS`
cutoff, skip obviously-full files, skip files already being appended in
this context, then call `dbox_map_file_try_append` and either stop (too
old / success) or reposition below the candidate's uid. -/
def scanStep (ctxFids : List Nat) (mailSize rotateSize : Nat)
    (view : List LEntry) (s : Nat) (minSeen lookups : Nat)
    (ta : List TAOut) : StepRes :=
  let e := view.getD s ⟨0, none⟩
  match e.mapRec with
  | none => .stop .ioErr []
  | some r =>
    if r.fileId = 0 then .stop .ioErr []
    else if minSeen ≤ r.fileId then
      .cont (.dedupeSkip (s + 1) e.uid r.fileId) view s minSeen lookups ta
    else if MAX_BACKWARDS_LOOKUPS < lookups + 1 then
      .stop .createNew [.capBreak (s + 1) e.uid r.fileId]
    else if rotateSize ≤ r.offset + r.size + mailSize then
      .cont (.sizeSkip (s + 1) e.uid r.fileId) view s r.fileId (lookups + 1) ta
    else if r.fileId ∈ ctxFids then
      .cont (.appendingSkip (s + 1) e.uid r.fileId) view s r.fileId
        (lookups + 1) ta
    else
      match ta with
      | [] => .stop .createNew [.examine (s + 1) e.uid r.fileId .tooOld]
      | .tooOld :: _ => .stop .createNew [.examine (s + 1) e.uid r.fileId .tooOld]
      | .success :: _ =>
        .stop .foundFile [.examine (s + 1) e.uid r.fileId .success]
      | .keep nv :: taRest =>
        if e.uid = 1 then
          .stop .createNew [.examine (s + 1) e.uid r.fileId (.keep nv)]
        else
          match seqRangeLast nv (e.uid - 1) with
          | none => .stop .createNew [.examine (s + 1) e.uid r.fileId (.keep nv)]
          | some s2 =>
            .cont (.examine (s + 1) e.uid r.fileId (.keep nv)) nv s2 r.fileId
              (lookups + 1) taRest

/-- The backward-scan loop (`for (seq = messages_count; seq > 0; seq--)`),
fuel-indexed to express the uid-based termination argument of the C code;
`fuelOut` marks fuel exhaustion and never occurs for sufficient fuel. -/
def scanGo (ctxFids : List Nat) (mailSize rotateSize : Nat) :
    Nat → List LEntry → Nat → Nat → Nat → List TAOut →
    ScanOutcome × List ScanEv
  | 0, _, _, _, _, _ => (.fuelOut, [])
  | _ + 1, _, 0, _, _, _ => (.createNew, [])
  | fuel + 1, view, s + 1, minSeen, lookups, ta =>
    match scanStep ctxFids mailSize rotateSize view s minSeen lookups ta with
    | .stop o evs => (o, evs)
    | .cont ev v2 s2 m2 l2 ta2 =>
      let r := scanGo ctxFids mailSize rotateSize fuel v2 s2 m2 l2 ta2
      (r.1, ev :: r.2)

/-! ## append_next (dbox_map_append_next) -/

structure Storage where
  rotateSize : Nat
  rotateDays : Nat
deriving DecidableEq, Repr

/-- A queued append while still being written: the stream offset and the
stamped size (`none` is the `(uint32_t)-1` sentinel). -/
structure PendingAppend where
  offset : Nat
  size : Option Nat
deriving DecidableEq, Repr

/-- Oracle outcomes of the data-file collaborator calls made while
finding or creating an appendable file, keyed by context-file index where
per-file. -/
structure FindEnv where
  nextAppendOffset : Nat → Nat
  reuseStreamOk : Nat → Bool
  taPlan : List TAOut
  newStreamOk : Bool
  newStreamOffset : Nat
  scanFile : DboxFile
  scanStreamOffset : Nat

/-- The "reuse the batch's own open files" loop: walk the context's file
list backwards down to the `files_nonappendable_count` watermark; a file
with an open output whose next append offset still fits `rotate_size`
and whose append stream opens is reused. -/
def findReuseLoop (env : FindEnv) (files : List DboxFile)
    (mailSize rotateSize : Nat) : Nat → Nat → Option Nat
  | 0, _ => none
  | i + 1, stop =>
    if i + 1 ≤ stop then none
    else
      let f := files.getD i ⟨0, false, none, 0, 0⟩
      match f.output with
      | none => findReuseLoop env files mailSize rotateSize i stop
      | some _ =>
        if env.nextAppendOffset i + mailSize ≤ rotateSize ∧
           env.reuseStreamOk i = true then
          some i
        else findReuseLoop env files mailSize rotateSize i stop

inductive FindOutcome where
  | ioErr
  | createNew
  | reuse (fileIdx : Nat)
  | scanFound
  | fuelOut
deriving DecidableEq, Repr

/-- Fuel that dominates the scan: the view length plus the lengths of all
oracle-provided refreshed views. -/
def scanFuel (view : List LEntry) (ta : List TAOut) : Nat :=
  view.length + (ta.map fun o =>
    match o with
    | .keep v => v.length + 1
    | _ => 1).sum + 1

/-- `dbox_map_find_appendable_file`: mail at least `rotate_size` large
goes straight to "create a new file" (return 0); otherwise try the
batch's own files, then the backward scan.  Returns the outcome, the scan
trace, and the updated `files_nonappendable_count`. -/
def dbox_map_find_appendable_file (env : FindEnv) (storage : Storage)
    (files : List DboxFile) (nonappendable : Nat) (view : List LEntry)
    (mailSize : Nat) : (FindOutcome × List ScanEv) × Nat :=
  if storage.rotateSize ≤ mailSize then ((.createNew, []), nonappendable)
  else
    match findReuseLoop env files mailSize storage.rotateSize
        files.length nonappendable with
    | some i => ((.reuse i, []), nonappendable)
    | none =>
      let sg := scanGo (files.map fun f => f.fileId) mailSize
        storage.rotateSize (scanFuel view env.taPlan) view view.length
        4294967295 0 env.taPlan
      ((match sg.1 with
        | .ioErr => .ioErr
        | .createNew => .createNew
        | .foundFile => .scanFound
        | .fuelOut => .fuelOut, sg.2), files.length)

structure ANResult where
  ret : Int
  retFile : Option DboxFile
  existing : Bool
  createdSingle : Option Bool
  unlinkedNew : Bool
  files : List DboxFile
  appends : List PendingAppend

/-- `dbox_map_append_next`: a failed context errors out; otherwise run
the search; on "create new" build a single-mailbox file when
`rotate_size == 0` and a multi-file otherwise and open its initial append
stream, unlinking and unreffing the fresh file when that fails; for
multi-files record a pending append with the sentinel size; add new files
to the batch with their `first_append_offset` stamped. -/
def dbox_map_append_next (env : FindEnv) (storage : Storage)
    (view : List LEntry) (failed : Bool) (files : List DboxFile)
    (nonappendable : Nat) (appends : List PendingAppend)
    (mailSize : Nat) : ANResult :=
  if failed then ⟨-1, none, false, none, false, files, appends⟩
  else
    let fr := dbox_map_find_appendable_file env storage files nonappendable
      view mailSize
    match fr.1.1 with
    | .ioErr => ⟨-1, none, false, none, false, files, appends⟩
    | .fuelOut => ⟨-1, none, false, none, false, files, appends⟩
    | .reuse i =>
      let f := files.getD i ⟨0, false, none, 0, 0⟩
      let appends2 := if f.singleMbox then appends
        else appends ++ [⟨env.nextAppendOffset i, none⟩]
      ⟨0, some f, true, none, false, files, appends2⟩
    | .scanFound =>
      let sf := env.scanFile
      let f := { sf with output := some env.scanStreamOffset,
                         firstAppendOffset := env.scanStreamOffset }
      let appends2 := if f.singleMbox then appends
        else appends ++ [⟨env.scanStreamOffset, none⟩]
      ⟨0, some f, false, none, false, files ++ [f], appends2⟩
    | .createNew =>
      let single := storage.rotateSize == 0
      if !env.newStreamOk then
        ⟨-1, none, false, some single, true, files, appends⟩
      else
        let f : DboxFile :=
          ⟨0, single, some env.newStreamOffset, env.newStreamOffset, 0⟩
        let appends2 := if single then appends
          else appends ++ [⟨env.newStreamOffset, none⟩]
        ⟨0, some f, false, some single, false, files ++ [f], appends2⟩

/-! ## Theorems -/

/-- Characterisation of one scanned sequence's contribution: the loop body
adds `fid` exactly when the sequence is not expunged, its map payload is
present and carries `fid`, and its ref payload is absent or zero. -/
lemma zeroRefContribution_eq_some (e : SeqEntry) (fid : Nat) :
    zeroRefContribution e = some fid ↔
      e.expunged = false ∧
      (∃ rec, e.mapRec = some rec ∧ rec.fileId = fid) ∧
      (e.ref = none ∨ e.ref = some 0) := by
  rcases e with ⟨mr, r, ex⟩
  cases ex <;> rcases r with _ | rv <;> rcases mr with _ | rec <;>
    simp [zeroRefContribution, zeroRefSkip]
  tauto

/-- C5 (counterexample): a sequence whose "ref" payload is absent (NULL
data), not expunged, with a present map record, still contributes its
file id, refuting "contributes iff the ref payload is *present*, not
expunged, and equal to zero". -/
theorem c5_refuted_at_absent_ref_payload :
    zeroRefContribution ⟨some ⟨3, 0, 5⟩, none, false⟩ = some 3 ∧
    (⟨some ⟨3, 0, 5⟩, none, false⟩ : SeqEntry).ref = none := by
  constructor <;> rfl

/-- C5 (amended): during zero-ref enumeration a scanned sequence
contributes its map record's file id if and only if the sequence is not
expunged, its map payload is present, and its ref payload is either
absent or equal to zero. -/
theorem c5_zero_ref_contribution_char (e : SeqEntry) (fid : Nat) :
    zeroRefContribution e = some fid ↔
      e.expunged = false ∧
      (∃ rec, e.mapRec = some rec ∧ rec.fileId = fid) ∧
      (e.ref = none ∨ e.ref = some 0) :=
  zeroRefContribution_eq_some e fid

/-- C1 (counterexample): with two live sequences both carrying file id 1,
one at refcount 0 and one at refcount 5, `dbox_map_get_zero_ref_files`
returns a set containing 1 even though not *every* live sequence with
file id 1 has refcount 0 — refuting the claim's "if and only if every". -/
theorem c1_refuted_at_mixed_refcounts :
    1 ∈ dbox_map_get_zero_ref_files
        [⟨some ⟨1, 0, 10⟩, some 0, false⟩, ⟨some ⟨1, 20, 10⟩, some 5, false⟩] ∧
    ∃ e ∈ ([⟨some ⟨1, 0, 10⟩, some 0, false⟩,
            ⟨some ⟨1, 20, 10⟩, some 5, false⟩] : List SeqEntry),
      isLive e ∧ (∃ rec, e.mapRec = some rec ∧ rec.fileId = 1) ∧
      refOrZero e ≠ 0 := by
  refine ⟨by decide, ⟨⟨some ⟨1, 20, 10⟩, some 5, false⟩, by decide⟩⟩

/-- C1 (amended): `dbox_map_get_zero_ref_files` returns a set containing
`fid` if and only if *some* live (non-expunged) sequence has a present map
record carrying `fid` and a refcount of zero (an absent ref payload
counting as zero). -/
theorem c1_zero_ref_files_mem (entries : List SeqEntry) (fid : Nat) :
    fid ∈ dbox_map_get_zero_ref_files entries ↔
      ∃ e ∈ entries, e.expunged = false ∧
        (∃ rec, e.mapRec = some rec ∧ rec.fileId = fid) ∧
        (e.ref = none ∨ e.ref = some 0) := by
  simp only [dbox_map_get_zero_ref_files, List.mem_filterMap]
  constructor
  · rintro ⟨e, he, hc⟩
    exact ⟨e, he, (zeroRefContribution_eq_some e fid).1 hc⟩
  · rintro ⟨e, he, hc⟩
    exact ⟨e, he, (zeroRefContribution_eq_some e fid).2 hc⟩

/-- C9: a map transaction whose `changed` flag is false commits as a
no-op: `dbox_map_transaction_commit` returns 0, opens no index sync, and
leaves both the stored map state and the context untouched. -/
theorem c9_unchanged_commit_noop (env : CommitEnv) (state : RefView)
    (ctx : MapTransCtx) (h : ctx.changed = false) :
    dbox_map_transaction_commit env state ctx =
      ⟨state, ctx, false, 0⟩ := by
  simp [dbox_map_transaction_commit, h]

/-- C9 witness: a concrete unchanged context commits as a no-op. -/
theorem c9_unchanged_commit_noop_witness :
    dbox_map_transaction_commit ⟨true, true⟩ [⟨1, some 4⟩]
        ⟨some ⟨[]⟩, false, false⟩ =
      ⟨[⟨1, some 4⟩], ⟨some ⟨[]⟩, false, false⟩, false, 0⟩ :=
  c9_unchanged_commit_noop ⟨true, true⟩ [⟨1, some 4⟩]
    ⟨some ⟨[]⟩, false, false⟩ rfl

/-- C10: with an open transaction, `dbox_map_update_refcounts` on an
empty uid list returns 0 and leaves the context untouched (in particular
`changed` stays false), so a subsequent `dbox_map_transaction_commit` is
a no-op returning 0 that opens no sync and leaves the map state alone. -/
theorem c10_empty_update_noop (env : CommitEnv) (view state : RefView)
    (ctx : MapTransCtx) (t : TransState) (d : Int)
    (htr : ctx.trans = some t) (hch : ctx.changed = false) :
    dbox_map_update_refcounts view ctx [] d = (ctx, 0) ∧
    dbox_map_transaction_commit env state
        (dbox_map_update_refcounts view ctx [] d).1 =
      ⟨state, (dbox_map_update_refcounts view ctx [] d).1, false, 0⟩ := by
  have h1 : dbox_map_update_refcounts view ctx [] d = (ctx, 0) := by
    rcases ctx with ⟨tr, ch, su⟩
    cases htr
    simp [dbox_map_update_refcounts, updateRefcountsLoop]
  refine ⟨h1, ?_⟩
  rw [h1]
  simp [dbox_map_transaction_commit, hch]

/-- C10 witness: concrete open-transaction context, empty uid list. -/
theorem c10_empty_update_noop_witness :
    dbox_map_update_refcounts [⟨1, some 4⟩] ⟨some ⟨[]⟩, false, false⟩ [] 1 =
      (⟨some ⟨[]⟩, false, false⟩, 0) ∧
    dbox_map_transaction_commit ⟨true, true⟩ [⟨1, some 4⟩]
        (dbox_map_update_refcounts [⟨1, some 4⟩]
          ⟨some ⟨[]⟩, false, false⟩ [] 1).1 =
      ⟨[⟨1, some 4⟩],
       (dbox_map_update_refcounts [⟨1, some 4⟩]
         ⟨some ⟨[]⟩, false, false⟩ [] 1).1, false, 0⟩ :=
  c10_empty_update_noop ⟨true, true⟩ [⟨1, some 4⟩] [⟨1, some 4⟩]
    ⟨some ⟨[]⟩, false, false⟩ ⟨[]⟩ 1 rfl rfl

/-- C2: with a fresh open transaction and a live entry of stored refcount
`r`, `dbox_map_update_refcounts [x] d` fails with -1 exactly when the
estimated resulting value `r + d` reaches 32768 (the "Message has been
copied too many times" policy error), and freeing the context without a
commit rolls everything back, leaving the stored map state — hence the
stored refcount `r` — untouched. -/
theorem c2_refcount_ceiling (view state : RefView) (x seq r : Nat) (d : Int)
    (ctx : MapTransCtx)
    (htr : ctx.trans = some ⟨[]⟩) (hsu : ctx.success = false)
    (hseq : lookupSeqIdx view x = some seq)
    (href : (view.getD seq ⟨0, none⟩).ref = some r) :
    ((dbox_map_update_refcounts view ctx [x] d).2 = -1 ↔
      32768 ≤ (r : Int) + d) ∧
    dbox_map_transaction_free state
        (dbox_map_update_refcounts view ctx [x] d).1 =
      ⟨state, false⟩ := by
  simp only [List.getD, List.get?_eq_getElem?] at href
  by_cases hc : 32768 ≤ (r : Int) + d <;>
    simp [dbox_map_update_refcounts, htr, updateRefcountsLoop, hseq,
          atomicIncExt, transDiff, dbox_map_transaction_free, hsu] <;>
    rw [href] <;> simp [hc]

/-- C2 witness: starting from stored refcount 32767, an update of +1
fails with the policy error, and freeing the context leaves the stored
state (hence the 32767 refcount) unchanged. -/
theorem c2_refcount_ceiling_witness :
    (dbox_map_update_refcounts [⟨7, some 32767⟩]
        ⟨some ⟨[]⟩, false, false⟩ [7] 1).2 = -1 ∧
    dbox_map_transaction_free [⟨7, some 32767⟩]
        (dbox_map_update_refcounts [⟨7, some 32767⟩]
          ⟨some ⟨[]⟩, false, false⟩ [7] 1).1 =
      ⟨[⟨7, some 32767⟩], false⟩ :=
  ⟨(c2_refcount_ceiling [⟨7, some 32767⟩] [⟨7, some 32767⟩] 7 0 32767 1
      ⟨some ⟨[]⟩, false, false⟩ rfl rfl (by decide) rfl).1.mpr (by norm_num),
   (c2_refcount_ceiling [⟨7, some 32767⟩] [⟨7, some 32767⟩] 7 0 32767 1
      ⟨some ⟨[]⟩, false, false⟩ rfl rfl (by decide) rfl).2⟩

/-- C3: freeing an append context without a successful commit rolls each
batch file back: a file with an assigned (nonzero) file id whose
`first_append_offset` lies strictly past the file header is truncated to
`first_append_offset`; every other batch file is unlinked. -/
theorem c3_append_free_rollback (files : List DboxFile) (i : Nat)
    (h : i < files.length) :
    ((dbox_map_append_free false files).1)[i]? =
      some (some (if files[i].fileId ≠ 0 ∧
                     files[i].fileHeaderSize < files[i].firstAppendOffset
                  then RollbackAction.truncate files[i].firstAppendOffset
                  else RollbackAction.unlink)) := by
  simp [dbox_map_append_free, dbox_map_append_file_rollback,
        List.getElem?_eq_getElem, h]

/-- C3 witness: a file with id 2 and first append offset 100 past its
32-byte header is truncated to 100 by the uncommitted free. -/
theorem c3_append_free_rollback_witness :
    ((dbox_map_append_free false [⟨2, false, none, 100, 32⟩]).1)[0]? =
      some (some (RollbackAction.truncate 100)) := by
  have h := c3_append_free_rollback [⟨2, false, none, 100, 32⟩] 0 (by decide)
  simpa using h

/-- `List.getD` through the `getElem?` normal form. -/
lemma getD_eq_getElem_opt {α : Type} (l : List α) (i : Nat) (d : α) :
    l.getD i d = (l[i]?).getD d := by
  simp [List.getD, List.get?_eq_getElem?]

/-- The uid at the sequence `mail_index_lookup_seq` resolves a uid to is
that uid. -/
lemma lookupSeqBy_uid {α : Type} (uidOf : α → Nat) (d : α) :
    ∀ (v : List α) (u s : Nat), lookupSeqBy uidOf v u = some s →
      uidOf (v.getD s d) = u := by
  intro v
  induction v with
  | nil => intro u s h; simp [lookupSeqBy] at h
  | cons e rest ih =>
    intro u s h
    by_cases he : uidOf e = u
    · simp only [lookupSeqBy, he, if_pos] at h
      cases h
      simpa using he
    · simp only [lookupSeqBy, he, if_neg, not_false_iff, Option.map_eq_some'] at h
      rcases h with ⟨s', hs', rfl⟩
      simpa [List.getD] using ih u s' hs'

/-- C4: `dbox_map_lookup` coincides with the claim's description on every
map state and uid: 1 with `(file_id, offset)` when the uid resolves after
at most one refresh-and-retry, 0 when it is still missing after the
refresh, -1 on open/refresh I/O failure, and -1 with the looked-up map
uid named in the corruption message when the resolved sequence has no map
payload or carries `file_id == 0`. -/
theorem c4_lookup_matches_spec (m : LookupMap) (uid : Nat) :
    dbox_map_lookup m uid = dbox_map_lookup_spec m uid := by
  by_cases ho : m.openOk
  · simp only [dbox_map_lookup, dbox_map_lookup_spec, dbox_map_get_seq, ho,
      Bool.not_true, Bool.false_eq_true, if_false]
    cases hv : lookupSeqL m.view uid with
    | some s =>
      have hu0 : lookupSeqBy LEntry.uid m.view uid = some s := hv
      have hu : (m.view[s]?.getD (⟨0, none⟩ : LEntry)).uid = uid := by
        rw [← getD_eq_getElem_opt]
        exact lookupSeqBy_uid LEntry.uid (⟨0, none⟩ : LEntry) m.view uid s hu0
      simp only [dbox_map_lookup_seq]
      cases hr : (m.view.getD s ⟨0, none⟩).mapRec with
      | none => simp [hu]
      | some mrec =>
        by_cases hz : mrec.fileId = 0 <;> simp [hz, hu]
    | none =>
      by_cases hrf : m.refreshOk
      · simp only [hrf, Bool.not_true, Bool.false_eq_true, if_false]
        cases hd : lookupSeqL m.disk uid with
        | some s =>
          have hu0 : lookupSeqBy LEntry.uid m.disk uid = some s := hd
          have hu : (m.disk[s]?.getD (⟨0, none⟩ : LEntry)).uid = uid := by
            rw [← getD_eq_getElem_opt]
            exact lookupSeqBy_uid LEntry.uid (⟨0, none⟩ : LEntry) m.disk uid s hu0
          simp only [dbox_map_lookup_seq]
          cases hr : (m.disk.getD s ⟨0, none⟩).mapRec with
          | none => simp [hu]
          | some mrec =>
            by_cases hz : mrec.fileId = 0 <;> simp [hz, hu]
        | none => rfl
      · simp [hrf]
  · simp [dbox_map_lookup, dbox_map_lookup_spec, ho]

/-- C6: with the collaborator calls succeeding,
`dbox_map_append_assign_map_uids` returns `(0, 0)` and changes nothing
when no appends are queued; otherwise it appends, for each queued append
in order, a new row carrying `MapRecord{file_id, offset, size}` (the file
id read after assignment) and refcount 1, assigns map uids contiguously
from the header's `next_uid`, and returns a `(first, last)` range whose
size equals the number of queued appends. -/
theorem c6_assign_map_uids_spec (env : AssignEnv) (idx : MIndex)
    (files : List DboxFile) (appends : List AppendRec)
    (hs : env.syncOk = true) (hf : env.fileOpsOk = true)
    (hc : env.indexCommitOk = true) :
    dbox_map_append_assign_map_uids env idx files [] = ⟨idx, files, 0, 0, 0⟩ ∧
    (appends ≠ [] →
      (dbox_map_append_assign_map_uids env idx files appends).ret = 0 ∧
      (dbox_map_append_assign_map_uids env idx files appends).firstMapUid =
        idx.nextUid ∧
      (dbox_map_append_assign_map_uids env idx files appends).lastMapUid =
        idx.nextUid + appends.length - 1 ∧
      (dbox_map_append_assign_map_uids env idx files appends).lastMapUid + 1 -
        (dbox_map_append_assign_map_uids env idx files appends).firstMapUid =
        appends.length ∧
      (dbox_map_append_assign_map_uids env idx files appends).idx.entries =
        idx.entries ++ (appends.mapIdx fun i a =>
          MEntry.mk (idx.nextUid + i)
            (some (MapRec.mk
              (((assignFileIdsLoop files
                  (dbox_map_get_next_file_id idx)).1.getD a.fileIdx
                  ⟨0, false, none, 0, 0⟩).fileId)
              a.offset a.size))
            (some 1))) := by
  constructor
  · simp [dbox_map_append_assign_map_uids]
  · intro hne
    have hlen : appends.length ≠ 0 := by simpa using hne
    have h1 : 1 ≤ appends.length := Nat.one_le_iff_ne_zero.mpr hlen
    simp only [dbox_map_append_assign_map_uids, hlen, if_false, hs, hf, hc,
      Bool.not_true, Bool.false_eq_true]
    exact ⟨trivial, trivial, trivial, by omega, trivial⟩

/-- C6 witness: one queued append on a fresh multi-file, starting from
`next_uid = 5` and `highest_file_id = 3`, yields range (5, 5) and one new
row `MapRecord{4, 16, 100}` with refcount 1. -/
theorem c6_assign_map_uids_spec_witness :
    dbox_map_append_assign_map_uids ⟨true, true, true, 99⟩
      ⟨5, 1, some 3, []⟩ [⟨0, false, some 16, 16, 16⟩] [] =
      ⟨⟨5, 1, some 3, []⟩, [⟨0, false, some 16, 16, 16⟩], 0, 0, 0⟩ ∧
    (([⟨0, 16, 100⟩] : List AppendRec) ≠ [] →
      (dbox_map_append_assign_map_uids ⟨true, true, true, 99⟩
        ⟨5, 1, some 3, []⟩ [⟨0, false, some 16, 16, 16⟩] [⟨0, 16, 100⟩]).ret = 0 ∧
      (dbox_map_append_assign_map_uids ⟨true, true, true, 99⟩
        ⟨5, 1, some 3, []⟩ [⟨0, false, some 16, 16, 16⟩]
        [⟨0, 16, 100⟩]).firstMapUid = (5 : Nat) ∧
      (dbox_map_append_assign_map_uids ⟨true, true, true, 99⟩
        ⟨5, 1, some 3, []⟩ [⟨0, false, some 16, 16, 16⟩]
        [⟨0, 16, 100⟩]).lastMapUid =
        (5 : Nat) + ([⟨0, 16, 100⟩] : List AppendRec).length - 1 ∧
      (dbox_map_append_assign_map_uids ⟨true, true, true, 99⟩
        ⟨5, 1, some 3, []⟩ [⟨0, false, some 16, 16, 16⟩]
        [⟨0, 16, 100⟩]).lastMapUid + 1 -
      (dbox_map_append_assign_map_uids ⟨true, true, true, 99⟩
        ⟨5, 1, some 3, []⟩ [⟨0, false, some 16, 16, 16⟩]
        [⟨0, 16, 100⟩]).firstMapUid =
        ([⟨0, 16, 100⟩] : List AppendRec).length ∧
      (dbox_map_append_assign_map_uids ⟨true, true, true, 99⟩
        ⟨5, 1, some 3, []⟩ [⟨0, false, some 16, 16, 16⟩]
        [⟨0, 16, 100⟩]).idx.entries =
        [] ++ (([⟨0, 16, 100⟩] : List AppendRec).mapIdx fun i a =>
          MEntry.mk (5 + i)
            (some (MapRec.mk
              (((assignFileIdsLoop [⟨0, false, some 16, 16, 16⟩]
                  (dbox_map_get_next_file_id ⟨5, 1, some 3, []⟩)).1.getD
                  a.fileIdx ⟨0, false, none, 0, 0⟩).fileId)
              a.offset a.size))
            (some 1))) := by
  have h := c6_assign_map_uids_spec ⟨true, true, true, 99⟩ ⟨5, 1, some 3, []⟩
    [⟨0, false, some 16, 16, 16⟩] [⟨0, 16, 100⟩] rfl rfl rfl
  exact ⟨h.1, h.2⟩

/-- C8: when `mail_size ≥ rotate_size` the appendable-file search returns
"create new" (0) without reusing any file and without scanning, and
`dbox_map_append_next` then creates a new file — single-mailbox exactly
when `rotate_size == 0`, multi otherwise.  If the fresh file's initial
append stream fails, the file is unlinked and released and append_next
returns -1 leaving the batch untouched; on success the file (with its
`first_append_offset` stamped) joins the batch, with a sentinel-sized
pending append for a multi-file. -/
theorem c8_large_mail_new_file (env : FindEnv) (storage : Storage)
    (view : List LEntry) (files : List DboxFile) (nonappendable : Nat)
    (appends : List PendingAppend) (mailSize : Nat)
    (hm : storage.rotateSize ≤ mailSize) :
    dbox_map_find_appendable_file env storage files nonappendable view
        mailSize = ((.createNew, []), nonappendable) ∧
    (env.newStreamOk = false →
      dbox_map_append_next env storage view false files nonappendable
          appends mailSize =
        ⟨-1, none, false, some (storage.rotateSize == 0), true, files,
         appends⟩) ∧
    (env.newStreamOk = true →
      dbox_map_append_next env storage view false files nonappendable
          appends mailSize =
        ⟨0, some ⟨0, storage.rotateSize == 0, some env.newStreamOffset,
                  env.newStreamOffset, 0⟩,
         false, some (storage.rotateSize == 0), false,
         files ++ [⟨0, storage.rotateSize == 0, some env.newStreamOffset,
                    env.newStreamOffset, 0⟩],
         if storage.rotateSize == 0 then appends
         else appends ++ [⟨env.newStreamOffset, none⟩]⟩) := by
  have h1 : dbox_map_find_appendable_file env storage files nonappendable
      view mailSize = ((.createNew, []), nonappendable) := by
    simp [dbox_map_find_appendable_file, hm]
  refine ⟨h1, ?_, ?_⟩ <;> intro h <;>
    simp [dbox_map_append_next, h1, h]

/-- C8 witness: with `rotate_size = 1000` and a 1000-byte mail the search
creates a new multi-file, whose stream opens at offset 32. -/
theorem c8_large_mail_new_file_witness :
    dbox_map_find_appendable_file
        ⟨fun _ => 0, fun _ => false, [], true, 32, ⟨0, false, none, 0, 0⟩, 0⟩
        ⟨1000, 7⟩ [] 0 [] 1000 = ((.createNew, []), 0) ∧
    dbox_map_append_next
        ⟨fun _ => 0, fun _ => false, [], true, 32, ⟨0, false, none, 0, 0⟩, 0⟩
        ⟨1000, 7⟩ [] false [] 0 [] 1000 =
      ⟨0, some ⟨0, false, some 32, 32, 0⟩, false, some false, false,
       [⟨0, false, some 32, 32, 0⟩], [⟨32, none⟩]⟩ := by
  have h := c8_large_mail_new_file
    ⟨fun _ => 0, fun _ => false, [], true, 32, ⟨0, false, none, 0, 0⟩, 0⟩
    ⟨1000, 7⟩ [] [] 0 [] 1000 (by norm_num)
  exact ⟨h.1, by simpa using h.2.2 rfl⟩

/-- Case analysis of one backward-scan iteration: a stopping iteration
emits at most one event, at the current sequence, considered only below
the incoming `min_seen_file_id`, examined only below the lookup cap; a
continuing iteration obeys the same discipline and tracks how
`min_seen_file_id` and the lookup counter move, and without a `keep`
oracle it stays on the same view one sequence down. -/
lemma scanStep_cases (c : List Nat) (ms rs : Nat) (view : List LEntry)
    (s minSeen lookups : Nat) (ta : List TAOut) :
    (∃ o evs, scanStep c ms rs view s minSeen lookups ta = .stop o evs ∧
      (evs = [] ∨ ∃ e0, evs = [e0]) ∧
      (∀ e ∈ evs, e.seq = s + 1) ∧
      (∀ e ∈ evs, e.considered = true → e.fid < minSeen) ∧
      (countExamined evs = 0 ∨
        (countExamined evs = 1 ∧ lookups + 1 ≤ MAX_BACKWARDS_LOOKUPS))) ∨
    (∃ ev v2 s2 m2 l2 ta2,
      scanStep c ms rs view s minSeen lookups ta = .cont ev v2 s2 m2 l2 ta2 ∧
      ev.seq = s + 1 ∧
      ((ev.considered = false ∧ m2 = minSeen ∧ minSeen ≤ ev.fid) ∨
        (ev.considered = true ∧ m2 = ev.fid ∧ ev.fid < minSeen)) ∧
      ((ev.examined = false ∧ l2 = lookups) ∨
        (ev.examined = true ∧ l2 = lookups + 1 ∧
          lookups + 1 ≤ MAX_BACKWARDS_LOOKUPS)) ∧
      ((∀ o ∈ ta, o.isKeep = false) → v2 = view ∧ s2 = s ∧ ta2 = ta)) := by
  cases hm : ((view[s]?).getD (⟨0, none⟩ : LEntry)).mapRec with
  | none =>
    exact Or.inl ⟨.ioErr, [], by simp [scanStep, hm], Or.inl rfl, by simp,
      by simp, Or.inl rfl⟩
  | some r =>
    by_cases h0 : r.fileId = 0
    · exact Or.inl ⟨.ioErr, [], by simp [scanStep, hm, h0], Or.inl rfl,
        by simp, by simp, Or.inl rfl⟩
    by_cases hd : minSeen ≤ r.fileId
    · refine Or.inr ⟨.dedupeSkip (s + 1) (view.getD s ⟨0, none⟩).uid r.fileId,
        view, s, minSeen, lookups, ta, by simp [scanStep, hm, h0, hd], rfl,
        Or.inl ⟨rfl, rfl, hd⟩, Or.inl ⟨rfl, rfl⟩, fun _ => ⟨rfl, rfl, rfl⟩⟩
    have hlt : r.fileId < minSeen := Nat.lt_of_not_le hd
    by_cases hcap : MAX_BACKWARDS_LOOKUPS < lookups + 1
    · refine Or.inl ⟨.createNew,
        [.capBreak (s + 1) (view.getD s ⟨0, none⟩).uid r.fileId],
        by simp [scanStep, hm, h0, hd, hcap], Or.inr ⟨_, rfl⟩,
        by simp [ScanEv.seq], ?_,
        Or.inl (by simp [countExamined, ScanEv.examined])⟩
      intro e he _
      simp only [List.mem_singleton] at he
      subst he
      exact hlt
    have hcap2 : lookups + 1 ≤ MAX_BACKWARDS_LOOKUPS := Nat.le_of_not_lt hcap
    by_cases hsz : rs ≤ r.offset + r.size + ms
    · exact Or.inr ⟨.sizeSkip (s + 1) (view.getD s ⟨0, none⟩).uid r.fileId,
        view, s, r.fileId, lookups + 1, ta,
        by simp [scanStep, hm, h0, hd, hcap, hsz], rfl,
        Or.inr ⟨rfl, rfl, hlt⟩, Or.inr ⟨rfl, rfl, hcap2⟩,
        fun _ => ⟨rfl, rfl, rfl⟩⟩
    by_cases hap : r.fileId ∈ c
    · exact Or.inr ⟨.appendingSkip (s + 1) (view.getD s ⟨0, none⟩).uid r.fileId,
        view, s, r.fileId, lookups + 1, ta,
        by simp [scanStep, hm, h0, hd, hcap, hsz, hap], rfl,
        Or.inr ⟨rfl, rfl, hlt⟩, Or.inr ⟨rfl, rfl, hcap2⟩,
        fun _ => ⟨rfl, rfl, rfl⟩⟩
    cases hta : ta with
    | nil =>
      refine Or.inl ⟨.createNew,
        [.examine (s + 1) (view.getD s ⟨0, none⟩).uid r.fileId .tooOld],
        by simp [scanStep, hm, h0, hd, hcap, hsz, hap], Or.inr ⟨_, rfl⟩,
        by simp [ScanEv.seq], ?_,
        Or.inr ⟨by simp [countExamined, ScanEv.examined], hcap2⟩⟩
      intro e he _
      simp only [List.mem_singleton] at he
      subst he
      exact hlt
    | cons o rest =>
      cases o with
      | tooOld =>
        refine Or.inl ⟨.createNew,
          [.examine (s + 1) (view.getD s ⟨0, none⟩).uid r.fileId .tooOld],
          by simp [scanStep, hm, h0, hd, hcap, hsz, hap], Or.inr ⟨_, rfl⟩,
          by simp [ScanEv.seq], ?_,
          Or.inr ⟨by simp [countExamined, ScanEv.examined], hcap2⟩⟩
        intro e he _
        simp only [List.mem_singleton] at he
        subst he
        exact hlt
      | success =>
        refine Or.inl ⟨.foundFile,
          [.examine (s + 1) (view.getD s ⟨0, none⟩).uid r.fileId .success],
          by simp [scanStep, hm, h0, hd, hcap, hsz, hap], Or.inr ⟨_, rfl⟩,
          by simp [ScanEv.seq], ?_,
          Or.inr ⟨by simp [countExamined, ScanEv.examined], hcap2⟩⟩
        intro e he _
        simp only [List.mem_singleton] at he
        subst he
        exact hlt
      | keep nv =>
        by_cases hu : ((view[s]?).getD (⟨0, none⟩ : LEntry)).uid = 1
        · refine Or.inl ⟨.createNew,
            [.examine (s + 1) (view.getD s ⟨0, none⟩).uid r.fileId (.keep nv)],
            by simp [scanStep, hm, h0, hd, hcap, hsz, hap, hu],
            Or.inr ⟨_, rfl⟩, by simp [ScanEv.seq], ?_,
            Or.inr ⟨by simp [countExamined, ScanEv.examined], hcap2⟩⟩
          intro e he _
          simp only [List.mem_singleton] at he
          subst he
          exact hlt
        cases hr : seqRangeLast nv (((view[s]?).getD (⟨0, none⟩ : LEntry)).uid - 1) with
        | none =>
          refine Or.inl ⟨.createNew,
            [.examine (s + 1) (view.getD s ⟨0, none⟩).uid r.fileId (.keep nv)],
            by simp [scanStep, hm, h0, hd, hcap, hsz, hap, hu, hr],
            Or.inr ⟨_, rfl⟩, by simp [ScanEv.seq], ?_,
            Or.inr ⟨by simp [countExamined, ScanEv.examined], hcap2⟩⟩
          intro e he _
          simp only [List.mem_singleton] at he
          subst he
          exact hlt
        | some s2 =>
          refine Or.inr ⟨.examine (s + 1) (view.getD s ⟨0, none⟩).uid r.fileId
              (.keep nv), nv, s2, r.fileId, lookups + 1, rest,
            by simp [scanStep, hm, h0, hd, hcap, hsz, hap, hu, hr], rfl,
            Or.inr ⟨rfl, rfl, hlt⟩, Or.inr ⟨rfl, rfl, hcap2⟩, ?_⟩
          intro hk
          exact absurd (hk (.keep nv) (List.mem_cons_self _ _))
            (by simp [TAOut.isKeep])

/-- Considered scan events carry a file id below the incoming
`min_seen_file_id`, and every considered event's file id is strictly
below the file id of every earlier event of the trace. -/
lemma scanGo_fid_discipline (c : List Nat) (ms rs : Nat) :
    ∀ (fuel : Nat) (view : List LEntry) (s minSeen lookups : Nat)
      (ta : List TAOut),
      (∀ ev ∈ (scanGo c ms rs fuel view s minSeen lookups ta).2,
        ev.considered = true → ev.fid < minSeen) ∧
      List.Pairwise (fun a b => b.considered = true → b.fid < a.fid)
        (scanGo c ms rs fuel view s minSeen lookups ta).2 := by
  intro fuel
  induction fuel with
  | zero =>
    intro view s minSeen lookups ta
    simp [scanGo]
  | succ n ih =>
    intro view s minSeen lookups ta
    cases s with
    | zero => simp [scanGo]
    | succ s =>
      rcases scanStep_cases c ms rs view s minSeen lookups ta with
        ⟨o, evs, hst, hsing, hseq, hcons, hcount⟩ |
        ⟨ev, v2, s2, m2, l2, ta2, hst, hseq, hmv, hl, hnk⟩
      · simp only [scanGo, hst]
        refine ⟨hcons, ?_⟩
        rcases hsing with rfl | ⟨e0, rfl⟩
        · exact List.Pairwise.nil
        · exact List.pairwise_singleton _ _
      · simp only [scanGo, hst]
        obtain ⟨ih1, ih2⟩ := ih v2 s2 m2 l2 ta2
        constructor
        · intro e he hc
          rcases List.mem_cons.mp he with rfl | he2
          · rcases hmv with ⟨hf, _, _⟩ | ⟨_, _, hlt2⟩
            · simp [hf] at hc
            · exact hlt2
          · have hlt3 := ih1 e he2 hc
            rcases hmv with ⟨_, hm2, _⟩ | ⟨_, hm2, hlt2⟩
            · rwa [hm2] at hlt3
            · rw [hm2] at hlt3
              omega
        · refine List.pairwise_cons.mpr ⟨?_, ih2⟩
          intro b hb hc
          have hlt3 := ih1 b hb hc
          rcases hmv with ⟨_, hm2, hge⟩ | ⟨_, hm2, _⟩
          · rw [hm2] at hlt3
            omega
          · rwa [hm2] at hlt3

/-- The scan examines at most `MAX_BACKWARDS_LOOKUPS` candidates beyond
those already counted. -/
lemma scanGo_examined_cap (c : List Nat) (ms rs : Nat) :
    ∀ (fuel : Nat) (view : List LEntry) (s minSeen lookups : Nat)
      (ta : List TAOut), lookups ≤ MAX_BACKWARDS_LOOKUPS →
      countExamined (scanGo c ms rs fuel view s minSeen lookups ta).2 +
        lookups ≤ MAX_BACKWARDS_LOOKUPS := by
  intro fuel
  induction fuel with
  | zero =>
    intro view s minSeen lookups ta h
    simpa [scanGo, countExamined] using h
  | succ n ih =>
    intro view s minSeen lookups ta h
    cases s with
    | zero => simpa [scanGo, countExamined] using h
    | succ s =>
      rcases scanStep_cases c ms rs view s minSeen lookups ta with
        ⟨o, evs, hst, hsing, hseq, hcons, hcount⟩ |
        ⟨ev, v2, s2, m2, l2, ta2, hst, hseq, hmv, hl, hnk⟩
      · simp only [scanGo, hst]
        rcases hcount with hc0 | ⟨hc1, h11⟩
        · rw [hc0]
          omega
        · rw [hc1]
          omega
      · simp only [scanGo, hst]
        rcases hl with ⟨hex, hl2⟩ | ⟨hex, hl2, hle⟩
        · have h2 := ih v2 s2 m2 l2 ta2 (by omega : l2 ≤ MAX_BACKWARDS_LOOKUPS)
          have hcnt : countExamined
              (ev :: (scanGo c ms rs n v2 s2 m2 l2 ta2).2) =
              countExamined (scanGo c ms rs n v2 s2 m2 l2 ta2).2 := by
            simp [countExamined, List.countP_cons, hex]
          rw [hcnt]
          omega
        · have h2 := ih v2 s2 m2 l2 ta2 (by omega : l2 ≤ MAX_BACKWARDS_LOOKUPS)
          have hcnt : countExamined
              (ev :: (scanGo c ms rs n v2 s2 m2 l2 ta2).2) =
              countExamined (scanGo c ms rs n v2 s2 m2 l2 ta2).2 + 1 := by
            simp [countExamined, List.countP_cons, hex]
          rw [hcnt]
          omega

/-- With no `keep` outcome in the oracle plan (so the view is never
refreshed mid-scan), the scan visits strictly decreasing sequences,
bounded by its starting sequence. -/
lemma scanGo_seq_desc (c : List Nat) (ms rs : Nat) :
    ∀ (fuel : Nat) (view : List LEntry) (s minSeen lookups : Nat)
      (ta : List TAOut), (∀ o ∈ ta, o.isKeep = false) →
      (∀ ev ∈ (scanGo c ms rs fuel view s minSeen lookups ta).2,
        ev.seq ≤ s) ∧
      List.Pairwise (fun a b => b.seq < a.seq)
        (scanGo c ms rs fuel view s minSeen lookups ta).2 := by
  intro fuel
  induction fuel with
  | zero =>
    intro view s minSeen lookups ta _
    simp [scanGo]
  | succ n ih =>
    intro view s minSeen lookups ta hk
    cases s with
    | zero => simp [scanGo]
    | succ s =>
      rcases scanStep_cases c ms rs view s minSeen lookups ta with
        ⟨o, evs, hst, hsing, hseq, hcons, hcount⟩ |
        ⟨ev, v2, s2, m2, l2, ta2, hst, hseq, hmv, hl, hnk⟩
      · simp only [scanGo, hst]
        constructor
        · intro e he
          rw [hseq e he]
        · rcases hsing with rfl | ⟨e0, rfl⟩
          · exact List.Pairwise.nil
          · exact List.pairwise_singleton _ _
      · obtain ⟨hveq, hseq2, htaeq⟩ := hnk hk
        simp only [scanGo, hst, hveq, hseq2, htaeq]
        obtain ⟨ih1, ih2⟩ := ih view s m2 l2 ta hk
        constructor
        · intro e he
          rcases List.mem_cons.mp he with rfl | he2
          · exact le_of_eq hseq
          · have := ih1 e he2
            omega
        · refine List.pairwise_cons.mpr ⟨?_, ih2⟩
          intro b hb
          have := ih1 b hb
          rw [hseq]
          omega

/-- C7: for the backward scan of `dbox_map_find_appendable_file`, started
at the view's highest sequence with `min_seen_file_id = (uint32_t)-1` and
a zero lookup counter: an iteration passes the dedupe test only when its
file id is strictly smaller than the file id of every sequence seen so
far (so each distinct file is considered at most once), at most
`MAX_BACKWARDS_LOOKUPS = 10` candidates are examined before the scan
gives up, and — when no `dbox_map_file_try_append` call refreshes the
view mid-scan — the visited sequences strictly decrease from highest to
lowest. -/
theorem c7_backward_scan (ctxFids : List Nat)
    (mailSize rotateSize fuel : Nat) (view : List LEntry)
    (ta : List TAOut) :
    List.Pairwise (fun a b => b.considered = true → b.fid < a.fid)
      (scanGo ctxFids mailSize rotateSize fuel view view.length
        4294967295 0 ta).2 ∧
    countExamined (scanGo ctxFids mailSize rotateSize fuel view view.length
      4294967295 0 ta).2 ≤ MAX_BACKWARDS_LOOKUPS ∧
    ((∀ o ∈ ta, o.isKeep = false) →
      List.Pairwise (fun a b => b.seq < a.seq)
        (scanGo ctxFids mailSize rotateSize fuel view view.length
          4294967295 0 ta).2) := by
  refine ⟨(scanGo_fid_discipline ctxFids mailSize rotateSize fuel view
    view.length 4294967295 0 ta).2, ?_, ?_⟩
  · have := scanGo_examined_cap ctxFids mailSize rotateSize fuel view
      view.length 4294967295 0 ta (by simp [MAX_BACKWARDS_LOOKUPS])
    omega
  · intro hk
    exact (scanGo_seq_desc ctxFids mailSize rotateSize fuel view
      view.length 4294967295 0 ta hk).2

/-- C7 witness: a three-row view with file ids 5, 7, 5 coming down and an
empty oracle plan — the trace is computed concretely and satisfies all
three scan properties. -/
theorem c7_backward_scan_witness :
    List.Pairwise (fun a b => b.considered = true → b.fid < a.fid)
      (scanGo [] 10 1000 10
        [⟨1, some ⟨5, 0, 10⟩⟩, ⟨2, some ⟨7, 20, 10⟩⟩, ⟨3, some ⟨5, 40, 10⟩⟩]
        3 4294967295 0 []).2 ∧
    countExamined (scanGo [] 10 1000 10
      [⟨1, some ⟨5, 0, 10⟩⟩, ⟨2, some ⟨7, 20, 10⟩⟩, ⟨3, some ⟨5, 40, 10⟩⟩]
      3 4294967295 0 []).2 ≤ MAX_BACKWARDS_LOOKUPS ∧
    List.Pairwise (fun a b => b.seq < a.seq)
      (scanGo [] 10 1000 10
        [⟨1, some ⟨5, 0, 10⟩⟩, ⟨2, some ⟨7, 20, 10⟩⟩, ⟨3, some ⟨5, 40, 10⟩⟩]
        3 4294967295 0 []).2 := by
  have h := c7_backward_scan [] 10 1000 10
    [⟨1, some ⟨5, 0, 10⟩⟩, ⟨2, some ⟨7, 20, 10⟩⟩, ⟨3, some ⟨5, 40, 10⟩⟩] []
  exact ⟨h.1, h.2.1, h.2.2 (by simp)⟩

end DboxMap

